import Mathlib

/-
Verification of the group/policy authorization core of the shareddeps
library (src/auth).  The policy engine (casbin) is modelled as explicit
state: a list of policy triples and the two named grouping relations
"g" (user -> user-group) and "g2" (resource -> resource-group), with the
engine primitives translated from the casbin API calls the source makes.
The manager operations are translated from src/auth/middleware.go
(groupManager), src/auth/policies.go and src/auth/const.go.
-/

namespace SharedDeps

/- Constants from src/auth/const.go. -/
def nullUser : String := "nullUser"

def nullResource : String := "nullResource"

def enclaveAdminGroup : String := "enclaveAdmin"

/-- Error taxonomy of src/auth/const.go.  CasbinError (engine failure)
cannot arise in this pure model of the engine, so only the two
validation errors are representable. -/
inductive AuthError where
  | conflict (reason : String)
  | notFound (resourceType : String) (name : String)
deriving DecidableEq, Repr

deriving instance DecidableEq for Except

/-- A grouping row (entity, group) of a named grouping relation. -/
abbrev GRow := String × String

/-- A policy row (subject-group, object-group, action). -/
abbrev PRow := String × String × String

/-- The casbin engine state: policy rows plus the two grouping
relations used by the model in src/auth/middleware.go. -/
structure EngineState where
  policies : List PRow
  gRows : List GRow
  g2Rows : List GRow
deriving DecidableEq, Repr

def emptyState : EngineState := ⟨[], [], []⟩

/- Casbin primitives used by the source (add-if-absent, atomic batch
add/remove, filtered removal/query).  SavePolicy is a persistence
flush with no effect on the in-memory state and is not modelled. -/

/-- casbin AddNamedGroupingPolicy / AddPolicy: append unless present. -/
def addGroupingRow (rows : List GRow) (r : GRow) : List GRow :=
  if r ∈ rows then rows else rows ++ [r]

def addPolicyRow (rows : List PRow) (r : PRow) : List PRow :=
  if r ∈ rows then rows else rows ++ [r]

/-- casbin AddNamedGroupingPolicies: atomic, a no-op when any of the
new rules is already present. -/
def addGroupingRows (rows newRows : List GRow) : List GRow :=
  if ∃ r ∈ newRows, r ∈ rows then rows else rows ++ newRows

/-- casbin RemoveNamedGroupingPolicies: atomic, removes the listed
rules when all are present, otherwise a no-op. -/
def removeGroupingRows (rows newRows : List GRow) : List GRow :=
  if ∀ r ∈ newRows, r ∈ rows then rows.filter (fun r => decide (r ∉ newRows))
  else rows

/-- casbin GetFilteredNamedGroupingPolicy(ptype, idx, v): rows whose
field at idx equals v (the source only uses idx 0 and 1). -/
def getFilteredGrouping (rows : List GRow) (idx : Nat) (v : String) : List GRow :=
  rows.filter (fun r => decide ((if idx = 0 then r.1 else r.2) = v))

/-- casbin RemoveFilteredNamedGroupingPolicy(ptype, idx, v). -/
def removeFilteredGrouping (rows : List GRow) (idx : Nat) (v : String) : List GRow :=
  rows.filter (fun r => decide ((if idx = 0 then r.1 else r.2) ≠ v))

/-- casbin RemoveFilteredPolicy(0, v): removes policy rows whose
subject field equals v. -/
def removeFilteredPolicy0 (rows : List PRow) (v : String) : List PRow :=
  rows.filter (fun p => decide (p.1 ≠ v))

/-- casbin GetFilteredPolicy(0, sub, obj, act): exact-triple filter. -/
def getFilteredPolicy3 (rows : List PRow) (r : PRow) : List PRow :=
  rows.filter (fun p => decide (p = r))

/-- casbin RemovePolicy: removes the exact rule. -/
def removePolicyRow (rows : List PRow) (r : PRow) : List PRow :=
  rows.filter (fun p => decide (p ≠ r))

/- The generic group manager of src/auth/middleware.go, parameterized
by the entity kind (newUserGroupManager / newResourceGroupManager). -/

inductive Kind where
  | user
  | resource
deriving DecidableEq, Repr

/-- gm.nullName. -/
def Kind.nullName : Kind → String
  | .user => nullUser
  | .resource => nullResource

/-- gm.groupName, used in NotFoundError. -/
def Kind.displayName : Kind → String
  | .user => "userGroup"
  | .resource => "resourceGroup"

/-- The grouping relation this kind stores into ("g" or "g2"). -/
def Kind.rows (k : Kind) (s : EngineState) : List GRow :=
  match k with
  | .user => s.gRows
  | .resource => s.g2Rows

def Kind.setRows (k : Kind) (s : EngineState) (rows : List GRow) : EngineState :=
  match k with
  | .user => { s with gRows := rows }
  | .resource => { s with g2Rows := rows }

/-- groupManager.GroupExists: at least one grouping row names the
group in the group position. -/
def GroupExists (k : Kind) (s : EngineState) (name : String) : Bool :=
  decide (0 < (getFilteredGrouping (k.rows s) 1 name).length)

/-- groupManager.CreateGroup: idempotent create via a self-referential
placeholder row (name, name). -/
def CreateGroup (k : Kind) (s : EngineState) (name : String) :
    Except AuthError EngineState :=
  if GroupExists k s name then .ok s
  else .ok (k.setRows s (addGroupingRow (k.rows s) (name, name)))

/-- groupManager.RemoveGroup: refuses the admin group, requires
existence, removes the grouping rows naming the group and the policy
rows whose subject field is the group name. -/
def RemoveGroup (k : Kind) (s : EngineState) (name : String) :
    Except AuthError EngineState :=
  if name = enclaveAdminGroup then
    .error (.conflict "Enclave admin group cannot be removed")
  else if GroupExists k s name then
    let s1 := k.setRows s (removeFilteredGrouping (k.rows s) 1 name)
    .ok { s1 with policies := removeFilteredPolicy0 s1.policies name }
  else .error (.notFound k.displayName name)

/-- The sequential existence loop of AddToGroup / RemoveFromGroup:
the first group name that does not exist, if any. -/
def checkGroupsExist (k : Kind) (s : EngineState) : List String → Option String
  | [] => none
  | g :: rest => if GroupExists k s g then checkGroupsExist k s rest else some g

/-- groupManager.AddToGroup: rejects the null entity, validates every
group name sequentially, then writes all rows in one batched call. -/
def AddToGroup (k : Kind) (s : EngineState) (entityName : String)
    (groupNames : List String) : Except AuthError EngineState :=
  if entityName = k.nullName then
    .error (.conflict ("Name " ++ entityName ++ " is reserved"))
  else
    match checkGroupsExist k s groupNames with
    | some missing => .error (.notFound k.displayName missing)
    | none =>
        .ok (k.setRows s
          (addGroupingRows (k.rows s) (groupNames.map fun g => (entityName, g))))

/-- groupManager.RemoveFromGroup. -/
def RemoveFromGroup (k : Kind) (s : EngineState) (entityName : String)
    (groupNames : List String) : Except AuthError EngineState :=
  if entityName = k.nullName then
    .error (.conflict ("Name " ++ entityName ++ " is reserved"))
  else
    match checkGroupsExist k s groupNames with
    | some missing => .error (.notFound k.displayName missing)
    | none =>
        .ok (k.setRows s
          (removeGroupingRows (k.rows s) (groupNames.map fun g => (entityName, g))))

/-- groupManager.RemoveEntity: rejects the null entity, otherwise
removes every grouping row whose entity field matches. -/
def RemoveEntity (k : Kind) (s : EngineState) (entityName : String) :
    Except AuthError EngineState :=
  if entityName = k.nullName then
    .error (.conflict ("Name " ++ entityName ++ " is reserved"))
  else .ok (k.setRows s (removeFilteredGrouping (k.rows s) 0 entityName))

/-- groupManager.GetGroupsForEntity. -/
def GetGroupsForEntity (k : Kind) (s : EngineState) (entityName : String) :
    List String :=
  (getFilteredGrouping (k.rows s) 0 entityName).map (fun r => r.2)

/-- groupManager.GetEntitiesInGroup: requires existence, then lists the
entity fields of the rows naming the group, skipping rows whose entity
field equals nullUser (the source compares against nullUser for both
kinds, middleware.go line 458). -/
def GetEntitiesInGroup (k : Kind) (s : EngineState) (groupName : String) :
    Except AuthError (List String) :=
  if GroupExists k s groupName then
    .ok (((getFilteredGrouping (k.rows s) 1 groupName).filter
      (fun r => decide (r.1 ≠ nullUser))).map (fun r => r.1))
  else .error (.notFound k.displayName groupName)

/- The policy manager of src/auth/policies.go. -/

structure Policy where
  userGroup : String
  resourceGroup : String
  permission : String
deriving DecidableEq, Repr

def UserGroupExists (s : EngineState) (name : String) : Bool :=
  GroupExists .user s name

def ResourceGroupExists (s : EngineState) (name : String) : Bool :=
  GroupExists .resource s name

/-- AuthModule.AddPolicy: validates each non-wildcard side against the
corresponding group kind, no-ops on an identical stored triple,
otherwise appends the triple. -/
def AddPolicy (s : EngineState) (userGroup resourceGroup method : String) :
    Except AuthError EngineState :=
  if userGroup ≠ "*" ∧ UserGroupExists s userGroup = false then
    .error (.notFound "userGroup" userGroup)
  else if resourceGroup ≠ "*" ∧ ResourceGroupExists s resourceGroup = false then
    .error (.notFound "resourceGroup" resourceGroup)
  else if 0 < (getFilteredPolicy3 s.policies (userGroup, resourceGroup, method)).length then
    .ok s
  else
    .ok { s with policies := addPolicyRow s.policies (userGroup, resourceGroup, method) }

/-- AuthModule.ListPolicies. -/
def ListPolicies (s : EngineState) : List Policy :=
  s.policies.map (fun p => ⟨p.1, p.2.1, p.2.2⟩)

/-- AuthModule.RemovePolicy: refuses exactly the admin policy triple,
otherwise removes the exact triple (no existence requirement). -/
def RemovePolicy (s : EngineState) (userGroup resourceGroup method : String) :
    Except AuthError EngineState :=
  if userGroup = enclaveAdminGroup ∧ resourceGroup = "*" ∧ method = "*" then
    .error (.conflict "The provided policy cannot be removed")
  else .ok { s with policies := removePolicyRow s.policies (userGroup, resourceGroup, method) }

/- Bootstrap (InitAuth, src/auth/middleware.go lines 52-136). -/

/-- The protected admin policy (enclaveAdmin, *, *). -/
def adminPolicyRow : PRow := (enclaveAdminGroup, "*", "*")

/-- The first seeding block of InitAuth: add the admin policy when no
stored policy row matches it. -/
def initAdminPolicy (s : EngineState) : EngineState :=
  if s.policies.any
      (fun p => p.1 == enclaveAdminGroup && p.2.1 == "*" && p.2.2 == "*") then s
  else { s with policies := addPolicyRow s.policies adminPolicyRow }

/-- The second seeding block of InitAuth: when no "g" row names the
admin group in the group position, add (nullUser, enclaveAdminGroup). -/
def initAdminGroupRow (s : EngineState) : EngineState :=
  if s.gRows.any (fun g => g.2 == enclaveAdminGroup) then s
  else { s with gRows := addGroupingRow s.gRows (nullUser, enclaveAdminGroup) }

/-- InitAuth on the loaded store contents. -/
def InitAuth (s : EngineState) : EngineState :=
  initAdminGroupRow (initAdminPolicy s)

/- Enforcement.  The matcher is fixed by the model string in
src/auth/middleware.go lines 53-69:
m = (g(r.sub, p.sub) or p.sub == *) and (g2(r.obj, p.obj) or p.obj == *)
    and (r.act == p.act or p.act == *),
with effect some(where p.eft == allow).  g / g2 are casbin role links:
reflexive chains over the grouping rows, bounded by the default
hierarchy depth 10. -/

def hasLink (rows : List GRow) : Nat → String → String → Bool
  | 0, a, b => a == b
  | n + 1, a, b =>
      a == b || rows.any (fun r => r.1 == a && hasLink rows n r.2 b)

def Enforce (s : EngineState) (sub obj act : String) : Bool :=
  s.policies.any (fun p =>
    (hasLink s.gRows 10 sub p.1 || p.1 == "*") &&
    (hasLink s.g2Rows 10 obj p.2.1 || p.2.1 == "*") &&
    (act == p.2.2 || p.2.2 == "*"))

/- The authorization middleware (src/auth/middleware.go lines 10-35)
as a function of the engine Enforce outcome for the request. -/

inductive MwOutcome where
  | next
  | abortStatus (code : Nat)
deriving DecidableEq, Repr

def statusForbidden : Nat := 403

def statusInternalServerError : Nat := 500

/-- AuthModule.Middleware: an Enforce error aborts with 500, a denial
aborts with 403, otherwise the handler chain continues. -/
def Middleware (enforceResult : Except String Bool) : MwOutcome :=
  match enforceResult with
  | .error _ => .abortStatus statusInternalServerError
  | .ok false => .abortStatus statusForbidden
  | .ok true => .next

/- The administrative surface as a labelled transition system, for
invariants over every reachable state. -/

inductive Op where
  | createGroup (k : Kind) (name : String)
  | removeGroup (k : Kind) (name : String)
  | addToGroup (k : Kind) (entity : String) (gs : List String)
  | removeFromGroup (k : Kind) (entity : String) (gs : List String)
  | removeEntity (k : Kind) (entity : String)
  | addPolicy (ug rg m : String)
  | removePolicy (ug rg m : String)

def applyOp (op : Op) (s : EngineState) : Except AuthError EngineState :=
  match op with
  | .createGroup k name => CreateGroup k s name
  | .removeGroup k name => RemoveGroup k s name
  | .addToGroup k e gs => AddToGroup k s e gs
  | .removeFromGroup k e gs => RemoveFromGroup k s e gs
  | .removeEntity k e => RemoveEntity k s e
  | .addPolicy ug rg m => AddPolicy s ug rg m
  | .removePolicy ug rg m => RemovePolicy s ug rg m

/-- A failed operation leaves the engine state untouched. -/
def runOp (op : Op) (s : EngineState) : EngineState :=
  match applyOp op s with
  | .ok s2 => s2
  | .error _ => s

/-- States reachable from initialization (on any starting store
contents) through the manager operations. -/
inductive Reachable : EngineState → Prop where
  | init (s0 : EngineState) : Reachable (InitAuth s0)
  | step (op : Op) {s : EngineState} : Reachable s → Reachable (runOp op s)

/- Concrete scenario of spec section 8, claim C1. -/

def c1Chain : Except AuthError EngineState :=
  (CreateGroup .user (InitAuth emptyState) "team1").bind fun s =>
  (AddToGroup .user s "alice" ["team1"]).bind fun s =>
  (CreateGroup .resource s "docs").bind fun s =>
  (AddToGroup .resource s "/docs" ["docs"]).bind fun s =>
  AddPolicy s "team1" "docs" "GET"

/- Helper lemmas. -/

theorem rows_setRows (k : Kind) (s : EngineState) (rows : List GRow) :
    k.rows (k.setRows s rows) = rows := by
  cases k <;> rfl

theorem policies_setRows (k : Kind) (s : EngineState) (rows : List GRow) :
    (k.setRows s rows).policies = s.policies := by
  cases k <;> rfl

theorem rows_update_policies (k : Kind) (t : EngineState) (ps : List PRow) :
    k.rows { t with policies := ps } = k.rows t := by
  cases k <;> rfl

theorem groupExists_update_policies (k : Kind) (s : EngineState)
    (ps : List PRow) (name : String) :
    GroupExists k { s with policies := ps } name = GroupExists k s name := by
  cases k <;> rfl

theorem self_mem_addGroupingRow (rows : List GRow) (r : GRow) :
    r ∈ addGroupingRow rows r := by
  unfold addGroupingRow
  split
  · assumption
  · simp

theorem self_mem_addPolicyRow (rows : List PRow) (r : PRow) :
    r ∈ addPolicyRow rows r := by
  unfold addPolicyRow
  split
  · assumption
  · simp

theorem mem_addPolicyRow {rows : List PRow} {t : PRow} (h : t ∈ rows)
    (r : PRow) : t ∈ addPolicyRow rows r := by
  unfold addPolicyRow
  split
  · exact h
  · exact List.mem_append_left _ h

theorem groupExists_of_mem {k : Kind} {s : EngineState} {name : String}
    {r : GRow} (hr : r ∈ k.rows s) (h2 : r.2 = name) :
    GroupExists k s name = true := by
  unfold GroupExists getFilteredGrouping
  rw [decide_eq_true_eq]
  have hmem : r ∈ (k.rows s).filter
      (fun r => decide ((if (1 : Nat) = 0 then r.1 else r.2) = name)) :=
    List.mem_filter.mpr ⟨hr, by simp [h2]⟩
  exact List.length_pos.mpr (List.ne_nil_of_mem hmem)

theorem initAdminGroupRow_policies (s : EngineState) :
    (initAdminGroupRow s).policies = s.policies := by
  unfold initAdminGroupRow
  split <;> rfl

theorem adminPolicy_mem_initAdminPolicy (s : EngineState) :
    adminPolicyRow ∈ (initAdminPolicy s).policies := by
  unfold initAdminPolicy
  split
  · next hAny =>
      simp only [List.any_eq_true, Bool.and_eq_true, beq_iff_eq] at hAny
      obtain ⟨p, hp, hconj⟩ := hAny
      obtain ⟨a, b, c⟩ := p
      obtain ⟨⟨h1, h2⟩, h3⟩ := hconj
      subst h1; subst h2; subst h3
      exact hp
  · exact self_mem_addPolicyRow s.policies adminPolicyRow

theorem adminPolicy_mem_initAuth (s0 : EngineState) :
    adminPolicyRow ∈ (InitAuth s0).policies := by
  unfold InitAuth
  rw [initAdminGroupRow_policies]
  exact adminPolicy_mem_initAdminPolicy s0

theorem admin_mem_applyOp (op : Op) (s s2 : EngineState)
    (happ : applyOp op s = .ok s2) (h : adminPolicyRow ∈ s.policies) :
    adminPolicyRow ∈ s2.policies := by
  cases op with
  | createGroup k name =>
      simp only [applyOp, CreateGroup] at happ
      split at happ
      · injection happ with h2
        subst h2
        exact h
      · injection happ with h2
        subst h2
        simpa [policies_setRows] using h
  | removeGroup k name =>
      simp only [applyOp, RemoveGroup] at happ
      split_ifs at happ with h1 h2
      injection happ with h3
      subst h3
      simp only [policies_setRows, removeFilteredPolicy0]
      refine List.mem_filter.mpr ⟨?_, ?_⟩
      · simpa [policies_setRows] using h
      · simp only [decide_eq_true_eq, adminPolicyRow]
        exact fun hEq => h1 hEq.symm
  | addToGroup k e gs =>
      simp only [applyOp, AddToGroup] at happ
      split at happ
      · simp at happ
      · split at happ
        · simp at happ
        · injection happ with h2
          subst h2
          simpa [policies_setRows] using h
  | removeFromGroup k e gs =>
      simp only [applyOp, RemoveFromGroup] at happ
      split at happ
      · simp at happ
      · split at happ
        · simp at happ
        · injection happ with h2
          subst h2
          simpa [policies_setRows] using h
  | removeEntity k e =>
      simp only [applyOp, RemoveEntity] at happ
      split at happ
      · simp at happ
      · injection happ with h2
        subst h2
        simpa [policies_setRows] using h
  | addPolicy ug rg m =>
      simp only [applyOp, AddPolicy] at happ
      split_ifs at happ with h1 h2 h3
      · injection happ with h4
        subst h4
        exact h
      · injection happ with h4
        subst h4
        exact mem_addPolicyRow h _
  | removePolicy ug rg m =>
      simp only [applyOp, RemovePolicy] at happ
      split_ifs at happ with h1
      injection happ with h2
      subst h2
      simp only [removePolicyRow]
      refine List.mem_filter.mpr ⟨h, ?_⟩
      simp only [decide_eq_true_eq]
      intro hEq
      rw [adminPolicyRow, Prod.ext_iff, Prod.ext_iff] at hEq
      exact h1 ⟨hEq.1.symm, hEq.2.1.symm, hEq.2.2.symm⟩

theorem admin_mem_runOp (op : Op) (s : EngineState)
    (h : adminPolicyRow ∈ s.policies) :
    adminPolicyRow ∈ (runOp op s).policies := by
  unfold runOp
  cases happ : applyOp op s with
  | ok s2 => exact admin_mem_applyOp op s s2 happ h
  | error e => exact h

theorem checkGroupsExist_eq_find (k : Kind) (s : EngineState)
    (gs : List String) :
    checkGroupsExist k s gs = gs.find? (fun g => !GroupExists k s g) := by
  induction gs with
  | nil => rfl
  | cons g rest ih =>
      unfold checkGroupsExist
      rw [List.find?_cons]
      by_cases hg : GroupExists k s g
      · simp [hg, ih]
      · simp [hg]

/- Claim theorems. -/

/-- Claim C1: after initialization on an empty store, the section-8
scenario (create team1, add alice, create docs, add /docs, add policy
(team1, docs, GET)) succeeds and yields a state in which alice may GET
/docs, alice may not DELETE /docs, and mallory may not GET /docs. -/
theorem c1_scenario_enforce :
    c1Chain.map (fun s =>
      (Enforce s "alice" "/docs" "GET",
       Enforce s "alice" "/docs" "DELETE",
       Enforce s "mallory" "/docs" "GET")) =
      .ok (true, false, false) := by decide

/-- Claim C3: for both entity kinds, AddToGroup, RemoveFromGroup and
RemoveEntity on the reserved null entity of that kind fail with a
ConflictError and leave the engine state unchanged, whatever groups
are named. -/
theorem c3_null_entity_mutations_conflict (k : Kind) (s : EngineState)
    (gs : List String) :
    AddToGroup k s k.nullName gs =
      .error (.conflict ("Name " ++ k.nullName ++ " is reserved")) ∧
    RemoveFromGroup k s k.nullName gs =
      .error (.conflict ("Name " ++ k.nullName ++ " is reserved")) ∧
    RemoveEntity k s k.nullName =
      .error (.conflict ("Name " ++ k.nullName ++ " is reserved")) ∧
    runOp (.addToGroup k k.nullName gs) s = s ∧
    runOp (.removeFromGroup k k.nullName gs) s = s ∧
    runOp (.removeEntity k k.nullName) s = s := by
  refine ⟨?_, ?_, ?_, ?_, ?_, ?_⟩ <;>
    simp [AddToGroup, RemoveFromGroup, RemoveEntity, runOp, applyOp]

/-- Claim C5 (evaluation at the failing input): after initialization on
an empty store the admin group lists as empty, but immediately after
CreateUserGroup of a fresh name the group lists its own self-referential
placeholder row, not the empty list the claim (and the repository test
TestCreateUserGroup) requires. -/
theorem c5_placeholder_leaks :
    GetEntitiesInGroup .user (InitAuth emptyState) enclaveAdminGroup =
      .ok [] ∧
    (CreateGroup .user (InitAuth emptyState) "team1").map
      (fun s => GetEntitiesInGroup .user s "team1") =
      .ok (.ok ["team1"]) := by decide

/-- Claim C7 (counterexample): on a starting store whose grouping rows
already name the admin group (here via the member bob), InitAuth does
not add the (nullUser, enclaveAdminGroup) row, so the null user is not
a member of the admin group after initialization. -/
theorem c7_counterexample :
    (nullUser, enclaveAdminGroup) ∉
      (InitAuth
        { policies := [], gRows := [("bob", enclaveAdminGroup)],
          g2Rows := [] }).gRows := by decide

/-- Claim C7 (amended): after initialization on any starting store the
admin policy is present (added when absent), some user-grouping row
names the admin group in the group position, and the row
(nullUser, enclaveAdminGroup) is added exactly when no starting row
named the admin group. -/
theorem c7_init_seeding_amended (s0 : EngineState) :
    adminPolicyRow ∈ (InitAuth s0).policies ∧
    (∃ r ∈ (InitAuth s0).gRows, r.2 = enclaveAdminGroup) ∧
    ((∀ r ∈ s0.gRows, r.2 ≠ enclaveAdminGroup) →
      (nullUser, enclaveAdminGroup) ∈ (InitAuth s0).gRows) := by
  refine ⟨adminPolicy_mem_initAuth s0, ?_, ?_⟩
  · unfold InitAuth initAdminGroupRow
    have hg : (initAdminPolicy s0).gRows = s0.gRows := by
      unfold initAdminPolicy
      split <;> rfl
    split
    · next hAny =>
        simp only [List.any_eq_true, beq_iff_eq] at hAny
        exact hAny
    · exact ⟨(nullUser, enclaveAdminGroup),
        self_mem_addGroupingRow _ _, rfl⟩
  · intro hnone
    unfold InitAuth initAdminGroupRow
    have hg : (initAdminPolicy s0).gRows = s0.gRows := by
      unfold initAdminPolicy
      split <;> rfl
    split
    · next hAny =>
        simp only [List.any_eq_true, beq_iff_eq, hg] at hAny
        obtain ⟨r, hr, hr2⟩ := hAny
        exact absurd hr2 (hnone r hr)
    · exact self_mem_addGroupingRow _ _

/-- Claim C7 (witness): on the empty store the seeding adds both the
admin policy and the (nullUser, enclaveAdminGroup) membership row. -/
theorem c7_init_seeding_amended_witness :
    (nullUser, enclaveAdminGroup) ∈ (InitAuth emptyState).gRows :=
  (c7_init_seeding_amended emptyState).2.2 (by decide)

/-- Claim C8: CreateGroup is idempotent for both kinds: both calls
succeed and the second call returns the state produced by the first
unchanged. -/
theorem c8_create_group_idempotent (k : Kind) (s : EngineState)
    (g : String) :
    ∃ s2, CreateGroup k s g = .ok s2 ∧ CreateGroup k s2 g = .ok s2 := by
  by_cases h : GroupExists k s g
  · exact ⟨s, by simp [CreateGroup, h], by simp [CreateGroup, h]⟩
  · refine ⟨k.setRows s (addGroupingRow (k.rows s) (g, g)),
      by simp [CreateGroup, h], ?_⟩
    have hex : GroupExists k
        (k.setRows s (addGroupingRow (k.rows s) (g, g))) g = true := by
      refine groupExists_of_mem (r := (g, g)) ?_ rfl
      rw [rows_setRows]
      exact self_mem_addGroupingRow _ _
    simp [CreateGroup, hex]

/-- Claim C10 (counterexample): when the engine Enforce call itself
fails, the middleware aborts with 500, not with the 403 the claim
states. -/
theorem c10_counterexample :
    Middleware (.error "enforce failed") ≠
      .abortStatus statusForbidden ∧
    Middleware (.error "enforce failed") =
      .abortStatus statusInternalServerError := by decide

/-- Claim C10 (amended): the middleware aborts with 403 on an engine
denial, aborts with 500 when the Enforce call itself errors, and lets
the request continue on an allow. -/
theorem c10_middleware_amended (e : String) :
    Middleware (.error e) = .abortStatus statusInternalServerError ∧
    Middleware (.ok false) = .abortStatus statusForbidden ∧
    Middleware (.ok true) = .next :=
  ⟨rfl, rfl, rfl⟩

/-- Claim C2: in every state reachable from initialization the admin
policy row is stored; removing the admin group or the admin policy
always fails with a ConflictError and changes nothing. -/
theorem c2_admin_policy_invariant :
    (∀ s, Reachable s → adminPolicyRow ∈ s.policies) ∧
    (∀ (k : Kind) (s : EngineState),
      RemoveGroup k s enclaveAdminGroup =
        .error (.conflict "Enclave admin group cannot be removed") ∧
      runOp (.removeGroup k enclaveAdminGroup) s = s) ∧
    (∀ s : EngineState,
      RemovePolicy s enclaveAdminGroup "*" "*" =
        .error (.conflict "The provided policy cannot be removed") ∧
      runOp (.removePolicy enclaveAdminGroup "*" "*") s = s) := by
  refine ⟨?_, ?_, ?_⟩
  · intro s hs
    induction hs with
    | init s0 => exact adminPolicy_mem_initAuth s0
    | step op hs ih => exact admin_mem_runOp op _ ih
  · intro k s
    constructor
    · simp [RemoveGroup]
    · simp [runOp, applyOp, RemoveGroup]
  · intro s
    constructor
    · simp [RemovePolicy]
    · simp [runOp, applyOp, RemovePolicy]

/-- Claim C2 (witness): on the state initialized from the empty store
the admin policy is present and its group cannot be removed. -/
theorem c2_admin_policy_invariant_witness :
    adminPolicyRow ∈ (InitAuth emptyState).policies ∧
    RemoveGroup .user (InitAuth emptyState) enclaveAdminGroup =
      .error (.conflict "Enclave admin group cannot be removed") :=
  ⟨c2_admin_policy_invariant.1 _ (Reachable.init emptyState),
   (c2_admin_policy_invariant.2.1 .user (InitAuth emptyState)).1⟩

/-- Claim C4 (counterexample): removing the resource group docs after
the section-8 scenario succeeds, yet the policy (team1, docs, GET) that
names docs in the object position is still stored, contradicting the
claim that RemoveGroup deletes every policy row naming the group in the
subject or object position. -/
theorem c4_counterexample :
    (c1Chain.bind (fun s => RemoveGroup .resource s "docs")).map
      (fun s => decide (("team1", "docs", "GET") ∈ s.policies)) =
      .ok true := by decide

/-- Claim C4 (amended): a successful RemoveGroup deletes exactly the
membership rows of that kind naming the group and the policy rows
naming the group in the subject position only; the section-8 follow-up
still holds: after RemoveUserGroup of team1 the (team1, docs, GET)
policy is gone and alice is denied GET on /docs. -/
theorem c4_remove_group_amended :
    (∀ (k : Kind) (s : EngineState) (name : String) (s2 : EngineState),
      RemoveGroup k s name = .ok s2 →
      s2.policies = s.policies.filter (fun p => decide (p.1 ≠ name)) ∧
      k.rows s2 = (k.rows s).filter (fun r => decide (r.2 ≠ name))) ∧
    (c1Chain.bind (fun s => RemoveGroup .user s "team1")).map
      (fun s => (decide (("team1", "docs", "GET") ∈ s.policies),
                 Enforce s "alice" "/docs" "GET")) = .ok (false, false) := by
  refine ⟨?_, by decide⟩
  intro k s name s2 hrem
  simp only [RemoveGroup] at hrem
  split_ifs at hrem with h1 h2
  injection hrem with h3
  subst h3
  constructor
  · simp [policies_setRows, removeFilteredPolicy0]
  · rw [rows_update_policies, rows_setRows]
    simp [removeFilteredGrouping]

/-- Claim C4 (witness): removing the user group team1 from a concrete
state deletes the policy row whose subject is team1. -/
theorem c4_remove_group_amended_witness :
    ({ policies := [], gRows := [], g2Rows := [] } : EngineState).policies =
      ({ policies := [("team1", "docs", "GET")],
         gRows := [("team1", "team1")],
         g2Rows := [] } : EngineState).policies.filter
        (fun p => decide (p.1 ≠ "team1")) :=
  ((c4_remove_group_amended.1 .user
    { policies := [("team1", "docs", "GET")], gRows := [("team1", "team1")],
      g2Rows := [] }
    "team1"
    { policies := [], gRows := [], g2Rows := [] }) (by decide)).1

/-- Claim C6: when some requested group name does not exist, AddToGroup
fails with a NotFoundError naming the first missing group in sequential
order and writes nothing; in particular adding bob to a nonexistent
group on the freshly initialized store fails and leaves bob in no
group. -/
theorem c6_add_to_group_first_missing :
    (∀ (k : Kind) (s : EngineState) (e : String) (gs : List String)
        (m : String),
      e ≠ k.nullName →
      gs.find? (fun g => !GroupExists k s g) = some m →
      AddToGroup k s e gs = .error (.notFound k.displayName m) ∧
      runOp (.addToGroup k e gs) s = s) ∧
    AddToGroup .user (InitAuth emptyState) "bob" ["nonexistent-group"] =
      .error (.notFound "userGroup" "nonexistent-group") ∧
    GetGroupsForEntity .user
      (runOp (.addToGroup .user "bob" ["nonexistent-group"])
        (InitAuth emptyState)) "bob" = [] := by
  refine ⟨?_, by decide, by decide⟩
  intro k s e gs m he hfind
  have hc : checkGroupsExist k s gs = some m := by
    rw [checkGroupsExist_eq_find]
    exact hfind
  constructor
  · simp [AddToGroup, he, hc]
  · simp [runOp, applyOp, AddToGroup, he, hc]

/-- Claim C6 (witness): the general statement applied to bob and a
nonexistent group on the freshly initialized store. -/
theorem c6_add_to_group_first_missing_witness :
    AddToGroup .user (InitAuth emptyState) "bob" ["nonexistent-group"] =
      .error (.notFound "userGroup" "nonexistent-group") ∧
    runOp (.addToGroup .user "bob" ["nonexistent-group"])
      (InitAuth emptyState) = InitAuth emptyState :=
  c6_add_to_group_first_missing.1 .user (InitAuth emptyState) "bob"
    ["nonexistent-group"] "nonexistent-group" (by decide) (by decide)

theorem length_getFilteredPolicy3 (rows : List PRow) (r : PRow) :
    (getFilteredPolicy3 rows r).length =
      rows.countP (fun p => decide (p = r)) :=
  (List.countP_eq_length_filter _ _).symm

theorem countP_ListPolicies (t : EngineState) (ug rg m : String) :
    (ListPolicies t).countP (fun q => decide (q = Policy.mk ug rg m)) =
      t.policies.countP (fun p => decide (p = (ug, rg, m))) := by
  unfold ListPolicies
  rw [List.countP_map]
  refine List.countP_congr ?_
  intro p hp
  simp [Policy.mk.injEq, Prod.ext_iff]

/-- Claim C9: for a state in which the user group and the resource
group exist and the triple is stored at most once (as in every state
this layer builds), AddPolicy of (ug, rg, GET) twice succeeds and
ListPolicies then holds exactly one matching entry. -/
theorem c9_add_policy_duplicate_noop (s : EngineState) (ug rg : String)
    (hu : UserGroupExists s ug = true)
    (hr : ResourceGroupExists s rg = true)
    (hcount : s.policies.countP (fun p => decide (p = (ug, rg, "GET"))) ≤ 1) :
    ∃ s1 s2, AddPolicy s ug rg "GET" = .ok s1 ∧
      AddPolicy s1 ug rg "GET" = .ok s2 ∧
      (ListPolicies s2).countP
        (fun q => decide (q = Policy.mk ug rg "GET")) = 1 := by
  have hg1 : ¬(ug ≠ "*" ∧ UserGroupExists s ug = false) := by simp [hu]
  have hg2 : ¬(rg ≠ "*" ∧ ResourceGroupExists s rg = false) := by simp [hr]
  by_cases hmem : 0 < (getFilteredPolicy3 s.policies (ug, rg, "GET")).length
  · refine ⟨s, s, ?_, ?_, ?_⟩
    · simp [AddPolicy, hg1, hg2, hmem]
    · simp [AddPolicy, hg1, hg2, hmem]
    · rw [countP_ListPolicies]
      rw [length_getFilteredPolicy3] at hmem
      exact Nat.le_antisymm hcount hmem
  · have hc0 : s.policies.countP (fun p => decide (p = (ug, rg, "GET"))) = 0 := by
      rw [length_getFilteredPolicy3] at hmem
      exact Nat.eq_zero_of_not_pos hmem
    have hnotmem : (ug, rg, "GET") ∉ s.policies := by
      intro hm
      have hpos : 0 < s.policies.countP
          (fun p => decide (p = (ug, rg, "GET"))) :=
        List.countP_pos_iff.mpr ⟨(ug, rg, "GET"), hm, by simp⟩
      rw [hc0] at hpos
      exact absurd hpos (lt_irrefl 0)
    have haddrow : addPolicyRow s.policies (ug, rg, "GET") =
        s.policies ++ [(ug, rg, "GET")] := by
      unfold addPolicyRow
      simp [hnotmem]
    have hcount1 :
        ({ s with policies := addPolicyRow s.policies (ug, rg, "GET") } :
          EngineState).policies.countP
          (fun p => decide (p = (ug, rg, "GET"))) = 1 := by
      show (addPolicyRow s.policies (ug, rg, "GET")).countP _ = 1
      rw [haddrow, List.countP_append, hc0]
      simp
    have hu1 : UserGroupExists
        { s with policies := addPolicyRow s.policies (ug, rg, "GET") } ug = true := by
      show GroupExists .user _ ug = true
      rw [groupExists_update_policies]
      exact hu
    have hr1 : ResourceGroupExists
        { s with policies := addPolicyRow s.policies (ug, rg, "GET") } rg = true := by
      show GroupExists .resource _ rg = true
      rw [groupExists_update_policies]
      exact hr
    have hg1b : ¬(ug ≠ "*" ∧ UserGroupExists
        { s with policies := addPolicyRow s.policies (ug, rg, "GET") } ug = false) := by
      simp [hu1]
    have hg2b : ¬(rg ≠ "*" ∧ ResourceGroupExists
        { s with policies := addPolicyRow s.policies (ug, rg, "GET") } rg = false) := by
      simp [hr1]
    have hmem1 : 0 < (getFilteredPolicy3
        ({ s with policies := addPolicyRow s.policies (ug, rg, "GET") } :
          EngineState).policies (ug, rg, "GET")).length := by
      rw [length_getFilteredPolicy3, hcount1]
      exact Nat.one_pos
    refine ⟨{ s with policies := addPolicyRow s.policies (ug, rg, "GET") },
      { s with policies := addPolicyRow s.policies (ug, rg, "GET") }, ?_, ?_, ?_⟩
    · simp [AddPolicy, hg1, hg2, hmem]
    · simp [AddPolicy, hg1b, hg2b, hmem1]
    · rw [countP_ListPolicies]
      exact hcount1

/-- Claim C9 (witness): on a concrete state holding the two groups and
no policies, adding (team1, docs, GET) twice stores it exactly once. -/
theorem c9_add_policy_duplicate_noop_witness :
    ∃ s1 s2,
      AddPolicy
        { policies := [], gRows := [("team1", "team1")],
          g2Rows := [("docs", "docs")] } "team1" "docs" "GET" = .ok s1 ∧
      AddPolicy s1 "team1" "docs" "GET" = .ok s2 ∧
      (ListPolicies s2).countP
        (fun q => decide (q = Policy.mk "team1" "docs" "GET")) = 1 :=
  c9_add_policy_duplicate_noop
    { policies := [], gRows := [("team1", "team1")],
      g2Rows := [("docs", "docs")] }
    "team1" "docs" (by decide) (by decide) (by decide)

end SharedDeps
